import Mathlib

/-!
Verification of the stormbot program (src/stormbot.py) against its
natural-language specification.  Python strings are embedded as `List Char`
where character-level manipulation matters; external effects (HTTP calls,
the OpenAI backend, the filesystem) are modelled as explicit parameters and
state passing.
-/

set_option autoImplicit false

/-! ## Generation client (gpt_chat_completion, stormbot.py lines 75-106) -/

/-- Outcome of one call to openai.ChatCompletion.create: it returns a
completion text, raises RateLimitError, or raises some other exception. -/
inductive AttemptOutcome where
  | success (text : String)
  | rateLimit
  | otherError
  deriving DecidableEq

/-- The sleep duration (seconds) executed after the rate-limited attempt with
0-based index `retries`.  The Python source reads `time.sleep(60 * 2 ^ retries)`;
in Python `^` is bitwise XOR and binds looser than `*`, so this parses as
`(60 * 2) XOR retries`. -/
def sleepDuration (retries : Nat) : Nat := Nat.xor (60 * 2) retries

/-- The retry loop of gpt_chat_completion (`for retries in range(5): ...`),
parameterised by the backend's behaviour on each 0-based attempt index.
Returns (result string, number of attempts performed, list of sleeps done). -/
def runAttempts (backend : Nat → AttemptOutcome) : Nat → Nat → String × Nat × List Nat
  | _, 0 => ("<Servers are busy!>", 0, [])
  | i, fuel + 1 =>
    match backend i with
    | .success t => (t, 1, [])
    | .otherError => ("<Unexpected error!>", 1, [])
    | .rateLimit =>
      let r := runAttempts backend (i + 1) fuel
      (r.1, r.2.1 + 1, sleepDuration i :: r.2.2)

/-- gpt_chat_completion's error handling, lines 90-106: up to 5 attempts,
returning the completion text on success, the unexpected-error sentinel on a
non-rate-limit exception, and the servers-busy sentinel when all 5 attempts
hit RateLimitError.  (The message-list construction in lines 78-88 does not
affect the retry behaviour and is modelled by `backend` directly.) -/
def gpt_chat_completion (backend : Nat → AttemptOutcome) : String × Nat × List Nat :=
  runAttempts backend 0 5

theorem runAttempts_all_rl (backend : Nat → AttemptOutcome) :
    ∀ fuel i, (∀ j, j < fuel → backend (i + j) = .rateLimit) →
      runAttempts backend i fuel =
        ("<Servers are busy!>", fuel, (List.range fuel).map (fun j => sleepDuration (i + j))) := by
  intro fuel
  induction fuel with
  | zero => intro i _; simp [runAttempts]
  | succ n ih =>
    intro i h
    have h0 : backend i = .rateLimit := by
      have := h 0 (Nat.succ_pos n)
      simpa using this
    have hrest : ∀ j, j < n → backend (i + 1 + j) = .rateLimit := by
      intro j hj
      have := h (j + 1) (by omega)
      rwa [show i + (j + 1) = i + 1 + j by omega] at this
    have hmap : sleepDuration i :: (List.range n).map (fun j => sleepDuration (i + 1 + j))
        = (List.range (n + 1)).map (fun j => sleepDuration (i + j)) := by
      rw [List.range_succ_eq_map]
      simp only [List.map_cons, List.map_map]
      refine congrArg₂ List.cons (by simp) ?_
      refine List.map_congr_left (fun a _ => ?_)
      simp only [Function.comp_apply]
      congr 1
      omega
    calc runAttempts backend i (n + 1)
        = ("<Servers are busy!>", n + 1,
            sleepDuration i :: (List.range n).map (fun j => sleepDuration (i + 1 + j))) := by
          simp [runAttempts, h0, ih (i + 1) hrest]
      _ = _ := by rw [hmap]

theorem runAttempts_rl_step (backend : Nat → AttemptOutcome) (i fuel : Nat)
    (h : 0 < fuel) (hb : backend i = .rateLimit) :
    (runAttempts backend i fuel).1 = (runAttempts backend (i + 1) (fuel - 1)).1 ∧
    (runAttempts backend i fuel).2.1 = (runAttempts backend (i + 1) (fuel - 1)).2.1 + 1 := by
  obtain ⟨m, rfl⟩ : ∃ m, fuel = m + 1 := ⟨fuel - 1, by omega⟩
  simp [runAttempts, hb]

theorem runAttempts_skip (backend : Nat → AttemptOutcome) :
    ∀ k i fuel, k < fuel → (∀ j, j < k → backend (i + j) = .rateLimit) →
      (runAttempts backend i fuel).1 = (runAttempts backend (i + k) (fuel - k)).1 ∧
      (runAttempts backend i fuel).2.1 = (runAttempts backend (i + k) (fuel - k)).2.1 + k := by
  intro k
  induction k with
  | zero => intro i fuel _ _; simp
  | succ n ih =>
    intro i fuel hk h
    have h0 : backend i = .rateLimit := by
      have := h 0 (by omega)
      simpa using this
    have hrest : ∀ j, j < n → backend (i + 1 + j) = .rateLimit := by
      intro j hj
      have := h (j + 1) (by omega)
      rwa [show i + (j + 1) = i + 1 + j by omega] at this
    have hih := ih (i + 1) (fuel - 1) (by omega) hrest
    have hidx : i + 1 + n = i + (n + 1) := by omega
    have hfe2 : fuel - 1 - n = fuel - (n + 1) := by omega
    rw [hidx, hfe2] at hih
    have hstep := runAttempts_rl_step backend i fuel (by omega) h0
    constructor
    · rw [hstep.1, hih.1]
    · rw [hstep.2, hih.2]
      omega

theorem runAttempts_result (backend : Nat → AttemptOutcome) :
    ∀ fuel i, (runAttempts backend i fuel).1 = "<Servers are busy!>" ∨
      (runAttempts backend i fuel).1 = "<Unexpected error!>" ∨
      ∃ j, j < fuel ∧ backend (i + j) = .success (runAttempts backend i fuel).1 := by
  intro fuel
  induction fuel with
  | zero => intro i; left; rfl
  | succ n ih =>
    intro i
    rcases hb : backend i with t | _ | _
    · right; right
      exact ⟨0, Nat.succ_pos n, by simp [runAttempts, hb]⟩
    · cases ih (i + 1) with
      | inl hcase => left; simpa [runAttempts, hb] using hcase
      | inr hcase =>
        cases hcase with
        | inl hcase' => right; left; simpa [runAttempts, hb] using hcase'
        | inr hcase' =>
          right; right
          obtain ⟨j, hj, hs⟩ := hcase'
          refine ⟨j + 1, by omega, ?_⟩
          rw [show i + (j + 1) = i + 1 + j by omega]
          simpa [runAttempts, hb] using hs
    · right; left
      simp [runAttempts, hb]

/-- Claim C1: gpt_chat_completion returns exactly one of {generated text,
the unexpected-error sentinel, the servers-busy sentinel} and never
propagates an error (it is a total function into String);
(a) if every attempt is rate-limited it returns the servers-busy sentinel
after exactly 5 attempts; (b) if the first k attempts are rate-limited and
attempt k+1 (1-based) raises a non-rate-limit error, it returns the
unexpected-error sentinel immediately, after exactly k+1 attempts; (c) if the
first k attempts are rate-limited and attempt k+1 succeeds with text t, it
returns t after exactly k+1 attempts. -/
theorem C1_gpt_chat_completion_outcomes (backend : Nat → AttemptOutcome) :
    ((∀ j, j < 5 → backend j = .rateLimit) →
      gpt_chat_completion backend =
        ("<Servers are busy!>", 5, (List.range 5).map sleepDuration)) ∧
    (∀ k, k < 5 → (∀ j, j < k → backend j = .rateLimit) → backend k = .otherError →
      (gpt_chat_completion backend).1 = "<Unexpected error!>" ∧
      (gpt_chat_completion backend).2.1 = k + 1) ∧
    (∀ k t, k < 5 → (∀ j, j < k → backend j = .rateLimit) → backend k = .success t →
      (gpt_chat_completion backend).1 = t ∧
      (gpt_chat_completion backend).2.1 = k + 1) ∧
    ((gpt_chat_completion backend).1 = "<Servers are busy!>" ∨
      (gpt_chat_completion backend).1 = "<Unexpected error!>" ∨
      ∃ j, j < 5 ∧ backend j = .success (gpt_chat_completion backend).1) := by
  refine ⟨?_, ?_, ?_, ?_⟩
  · intro h
    have := runAttempts_all_rl backend 5 0 (fun j hj => by simpa using h j hj)
    simpa [gpt_chat_completion] using this
  · intro k hk hrl hke
    have h1 := runAttempts_skip backend k 0 5 hk (fun j hj => by simpa using hrl j hj)
    have hfe : 5 - k = (5 - (k + 1)) + 1 := by omega
    simp only [Nat.zero_add] at h1
    rw [gpt_chat_completion, h1.1, h1.2, hfe]
    simp only [runAttempts, hke]
    exact ⟨by trivial, by omega⟩
  · intro k t hk hrl hks
    have h1 := runAttempts_skip backend k 0 5 hk (fun j hj => by simpa using hrl j hj)
    have hfe : 5 - k = (5 - (k + 1)) + 1 := by omega
    simp only [Nat.zero_add] at h1
    rw [gpt_chat_completion, h1.1, h1.2, hfe]
    simp only [runAttempts, hks]
    exact ⟨by trivial, by omega⟩
  · have := runAttempts_result backend 5 0
    simpa [gpt_chat_completion] using this

/-- Witness for C1 at concrete backends: an always-rate-limited backend yields
the servers-busy sentinel after 5 attempts; a backend failing fatally on
attempt 1 yields the unexpected-error sentinel after 1 attempt; a backend that
is rate-limited twice and then succeeds returns the text after 3 attempts. -/
theorem C1_gpt_chat_completion_outcomes_witness :
    gpt_chat_completion (fun _ => .rateLimit) =
      ("<Servers are busy!>", 5, (List.range 5).map sleepDuration) ∧
    (gpt_chat_completion (fun _ => .otherError)).1 = "<Unexpected error!>" ∧
    (gpt_chat_completion (fun _ => .otherError)).2.1 = 1 ∧
    (gpt_chat_completion (fun i => if i < 2 then .rateLimit else .success "ok")).1 = "ok" ∧
    (gpt_chat_completion (fun i => if i < 2 then .rateLimit else .success "ok")).2.1 = 3 := by
  refine ⟨?_, ?_, ?_, ?_, ?_⟩
  · exact (C1_gpt_chat_completion_outcomes (fun _ => .rateLimit)).1 (fun _ _ => rfl)
  · exact ((C1_gpt_chat_completion_outcomes (fun _ => .otherError)).2.1 0 (by omega)
      (fun j hj => absurd hj (by omega)) rfl).1
  · exact ((C1_gpt_chat_completion_outcomes (fun _ => .otherError)).2.1 0 (by omega)
      (fun j hj => absurd hj (by omega)) rfl).2
  · exact ((C1_gpt_chat_completion_outcomes
      (fun i => if i < 2 then .rateLimit else .success "ok")).2.2.1 2 "ok" (by omega)
      (fun j hj => by simp [hj]) (by simp)).1
  · exact ((C1_gpt_chat_completion_outcomes
      (fun i => if i < 2 then .rateLimit else .success "ok")).2.2.1 2 "ok" (by omega)
      (fun j hj => by simp [hj]) (by simp)).2

/-- Claim C2 (refuted on the code): the spec asks for a backoff of
`60 * 2 ^ retries` seconds, but the source's `time.sleep(60 * 2 ^ retries)`
computes `(60 * 2) XOR retries` because Python's `^` is bitwise XOR with lower
precedence than `*`.  The actual schedule for attempts 0..4 is
[120, 121, 122, 123, 124], not [60, 120, 240, 480, 960]. -/
theorem C2_backoff_xor_not_exponential :
    (List.range 5).map sleepDuration = [120, 121, 122, 123, 124] ∧
    (List.range 5).map (fun i => 60 * 2 ^ i) = [60, 120, 240, 480, 960] ∧
    ((List.range 5).filter (fun i => sleepDuration i = 60 * 2 ^ i)) = [] := by
  refine ⟨by decide, by decide, by decide⟩

/-! ## Source fetchers (read_latest_rss, scan_for_storms, get_plain_text,
stormbot.py lines 37-72).  Python strings are `List Char`; each external
interaction that can raise is an `Except Unit` value consumed by the
fetcher's try/except wrapper. -/

/-- A parsed feed entry ({title, summary, publishedAt}); a missing field makes
the corresponding attribute access raise (title/summary) or be falsy
(entry.get("published")). -/
structure FeedEntry where
  title : Option (List Char)
  summary : Option (List Char)
  published : Option (List Char)
  deriving DecidableEq

/-- Python str.lower, character by character. -/
def pyLower (s : List Char) : List Char := s.map Char.toLower

/-- Python substring containment (`pat in s`). -/
def containsSeq (pat : List Char) : List Char → Bool
  | [] => pat.isEmpty
  | c :: rest => pat.isPrefixOf (c :: rest) || containsSeq pat rest

/-- Python str.rstrip(): drop trailing whitespace. -/
def pyRstrip (s : List Char) : List Char :=
  (s.reverse.dropWhile Char.isWhitespace).reverse

/-- re.sub's replacement of every `<[^>]*>` match by a single space
(stormbot.py line 43): at each `<` that is later closed by some `>`, the
whole tag is replaced by one space; an unclosed `<` is kept verbatim. -/
def stripTags : List Char → List Char
  | [] => []
  | c :: rest =>
    if c = '<' then
      match rest.findIdx? (fun x => x = '>') with
      | some i => ' ' :: stripTags (rest.drop (i + 1))
      | none => c :: stripTags rest
    else c :: stripTags rest
termination_by l => l.length
decreasing_by
  all_goals simp [List.length_drop]
  all_goals omega

/-- Body of the try-block of read_latest_rss (lines 39-44): parse outcome,
empty-feed check, first entry's summary (raising if absent), tag strip,
rstrip. -/
def read_latest_rss_body : Except Unit (List FeedEntry) → Except Unit (List Char)
  | .error e => .error e
  | .ok entries =>
    match entries with
    | [] => .ok []
    | e :: _ =>
      match e.summary with
      | none => .error ()
      | some s => .ok (pyRstrip (stripTags s))

/-- read_latest_rss (lines 37-47): the try/except wrapper around the body;
any raised error is logged and the empty string returned. -/
def read_latest_rss (resp : Except Unit (List FeedEntry)) : List Char :=
  match read_latest_rss_body resp with
  | .ok s => s
  | .error _ => []

/-- The keyword test of line 57-58: lowercase the title, then substring-test
the three fixed keywords. -/
def stormTitleMatch (t : List Char) : Bool :=
  let l := pyLower t
  containsSeq "hurricane".toList l || containsSeq "tropical storm".toList l ||
    containsSeq "tropical cyclone".toList l

/-- The entry loop of scan_for_storms (lines 54-60).  `dp` models
dateutil.parser.parse (which may raise), `now` the current time, with the
7-day window expressed in the same units (days). -/
def scanLoop (dp : List Char → Except Unit Int) (now : Int) :
    List FeedEntry → Except Unit (List Char)
  | [] => .ok []
  | e :: rest =>
    match e.published with
    | none => scanLoop dp now rest
    | some p =>
      if p = [] then scanLoop dp now rest
      else
        match dp p with
        | .error u => .error u
        | .ok d =>
          if d < now - 7 then scanLoop dp now rest
          else
            match e.title with
            | none => .error ()
            | some t =>
              if stormTitleMatch t then .ok (t ++ '\n' :: e.summary.getD [])
              else scanLoop dp now rest

/-- scan_for_storms (lines 51-63): try/except wrapper around feed parsing and
the entry loop; any raised error yields the empty string. -/
def scan_for_storms (dp : List Char → Except Unit Int) (now : Int)
    (resp : Except Unit (List FeedEntry)) : List Char :=
  let body : Except Unit (List Char) :=
    match resp with
    | .error e => .error e
    | .ok entries => scanLoop dp now entries
  match body with
  | .ok s => s
  | .error _ => []

/-- get_plain_text (lines 67-72): returns the response body verbatim, or the
empty string when requests.get raises. -/
def get_plain_text (resp : Except Unit (List Char)) : List Char :=
  match resp with
  | .ok t => t
  | .error _ => []

/-- Claim C4: every fetcher maps every failing external interaction (and the
empty feed) to the empty string; since each fetcher is a total function into
`List Char`, no exception escapes to the caller. -/
theorem C4_fetchers_degrade_to_empty (dp : List Char → Except Unit Int) (now : Int) :
    (∀ e, read_latest_rss (.error e) = []) ∧
    (∀ resp err, read_latest_rss_body resp = .error err → read_latest_rss resp = []) ∧
    read_latest_rss (.ok []) = [] ∧
    (∀ e, scan_for_storms dp now (.error e) = []) ∧
    (∀ entries err, scanLoop dp now entries = .error err →
      scan_for_storms dp now (.ok entries) = []) ∧
    scan_for_storms dp now (.ok []) = [] ∧
    (∀ e, get_plain_text (.error e) = []) := by
  refine ⟨fun e => rfl, ?_, rfl, fun e => rfl, ?_, rfl, fun e => rfl⟩
  · intro resp err h
    simp [read_latest_rss, h]
  · intro entries err h
    simp [scan_for_storms, h]

/-- Witness for C4 at concrete failing inputs: raising parse, raising HTTP
get, the empty feed, and an entry whose date string fails to parse. -/
theorem C4_fetchers_degrade_to_empty_witness :
    read_latest_rss (.error ()) = [] ∧
    read_latest_rss (.ok []) = [] ∧
    scan_for_storms (fun _ => .error ()) 10 (.error ()) = [] ∧
    scan_for_storms (fun _ => .error ()) 10
      (.ok [⟨some "Hurricane".toList, some "s".toList, some "bad date".toList⟩]) = [] ∧
    get_plain_text (.error ()) = [] := by
  refine ⟨(C4_fetchers_degrade_to_empty (fun _ => .error ()) 10).1 (),
          (C4_fetchers_degrade_to_empty (fun _ => .error ()) 10).2.2.1,
          (C4_fetchers_degrade_to_empty (fun _ => .error ()) 10).2.2.2.1 (),
          (C4_fetchers_degrade_to_empty (fun _ => .error ()) 10).2.2.2.2.1
            [⟨some "Hurricane".toList, some "s".toList, some "bad date".toList⟩] () rfl,
          (C4_fetchers_degrade_to_empty (fun _ => .error ()) 10).2.2.2.2.2.2 ()⟩

/-- The qualification test implicit in the scan loop: an entry is returned
iff it has a non-empty publish date that parses to a time within the 7-day
window and its (lowercased) title contains one of the storm keywords. -/
def entryQualifies (dp : List Char → Except Unit Int) (now : Int) (e : FeedEntry) : Bool :=
  match e.published with
  | none => false
  | some p =>
    if p = [] then false
    else
      match dp p with
      | .error _ => false
      | .ok d =>
        if d < now - 7 then false
        else
          match e.title with
          | none => false
          | some t => stormTitleMatch t

theorem scanLoop_eq_find (dp : List Char → Except Unit Int) (now : Int) :
    ∀ entries : List FeedEntry, (∀ e ∈ entries, e.title ≠ none) →
      (∀ e ∈ entries, ∀ p, e.published = some p → p ≠ [] → ∃ d, dp p = .ok d) →
      scanLoop dp now entries = .ok
        (match entries.find? (entryQualifies dp now) with
         | some e => e.title.getD [] ++ '\n' :: e.summary.getD []
         | none => []) := by
  intro entries
  induction entries with
  | nil => intro _ _; rfl
  | cons e rest ih =>
    intro hT hD
    have hTe : e.title ≠ none := hT e (by simp)
    have hTrest : ∀ x ∈ rest, x.title ≠ none := fun x hx => hT x (by simp [hx])
    have hDrest : ∀ x ∈ rest, ∀ p, x.published = some p → p ≠ [] → ∃ d, dp p = .ok d :=
      fun x hx => hD x (by simp [hx])
    have ihr := ih hTrest hDrest
    rcases hpub : e.published with _ | p
    · have hq : entryQualifies dp now e = false := by
        simp [entryQualifies, hpub]
      rw [List.find?_cons_of_neg _ (by simp [hq])]
      simp only [scanLoop, hpub]
      exact ihr
    · by_cases hp : p = []
      · have hq : entryQualifies dp now e = false := by
          simp [entryQualifies, hpub, hp]
        rw [List.find?_cons_of_neg _ (by simp [hq])]
        simp only [scanLoop, hpub, hp, if_true]
        exact ihr
      · rcases hdp : dp p with u | d
        · obtain ⟨d, hd⟩ := hD e (by simp) p hpub hp
          rw [hd] at hdp
          cases hdp
        · by_cases hrec : d < now - 7
          · have hq : entryQualifies dp now e = false := by
              simp [entryQualifies, hpub, hp, hdp, hrec]
            rw [List.find?_cons_of_neg _ (by simp [hq])]
            simp only [scanLoop, hpub, if_neg hp, hdp, if_pos hrec]
            exact ihr
          · rcases htl : e.title with _ | t
            · exact absurd htl hTe
            · by_cases hm : stormTitleMatch t
              · have hq : entryQualifies dp now e = true := by
                  simp [entryQualifies, hpub, hp, hdp, hrec, htl, hm]
                rw [List.find?_cons_of_pos _ (by simp [hq])]
                simp only [scanLoop, hpub, if_neg hp, hdp, if_neg hrec, htl, if_pos hm]
                simp [htl]
              · have hq : entryQualifies dp now e = false := by
                  simp [entryQualifies, hpub, hp, hdp, hrec, htl, hm]
                rw [List.find?_cons_of_neg _ (by simp [hq])]
                simp only [scanLoop, hpub, if_neg hp, hdp, if_neg hrec, htl, if_neg hm]
                exact ihr

theorem entryQualifies_spec (dp : List Char → Except Unit Int) (now : Int) (e : FeedEntry)
    (hq : entryQualifies dp now e = true) :
    ∃ p d t, e.published = some p ∧ dp p = .ok d ∧ now - 7 ≤ d ∧
      e.title = some t ∧ stormTitleMatch t = true := by
  revert hq
  unfold entryQualifies
  rcases hpub : e.published with _ | p
  · simp
  · by_cases hp : p = []
    · simp [hp]
    · rcases hdp : dp p with u | d
      · simp [hp, hdp]
      · by_cases hrec : d < now - 7
        · simp [hp, hdp, hrec]
        · rcases htl : e.title with _ | t
          · simp [hp, hdp, hrec, htl]
          · intro hm
            refine ⟨p, d, t, rfl, hdp, by omega, rfl, ?_⟩
            simpa [hp, hdp, hrec, htl] using hm

/-- Claim C5: scan_for_storms returns, for the first entry in source order
that qualifies (non-empty parseable publish date within the 7-day window and
a case-insensitively keyword-matching title), the concatenation
title ++ "\n" ++ summary; any returned entry has a publish date within the
window; no qualifying entry yields the empty string; and the keyword match
depends only on the lowercased title, hence is case-insensitive. -/
theorem C5_scan_for_storms_first_match (dp : List Char → Except Unit Int) (now : Int)
    (entries : List FeedEntry)
    (hT : ∀ e ∈ entries, e.title ≠ none)
    (hD : ∀ e ∈ entries, ∀ p, e.published = some p → p ≠ [] → ∃ d, dp p = .ok d) :
    (scan_for_storms dp now (.ok entries) =
      match entries.find? (entryQualifies dp now) with
      | some e => e.title.getD [] ++ '\n' :: e.summary.getD []
      | none => []) ∧
    (∀ e, entries.find? (entryQualifies dp now) = some e →
      ∃ p d t, e.published = some p ∧ dp p = .ok d ∧ now - 7 ≤ d ∧
        e.title = some t ∧ stormTitleMatch t = true) ∧
    (∀ t t', pyLower t = pyLower t' → stormTitleMatch t = stormTitleMatch t') := by
  refine ⟨?_, ?_, ?_⟩
  · have h := scanLoop_eq_find dp now entries hT hD
    simp [scan_for_storms, h]
  · intro e hfind
    exact entryQualifies_spec dp now e (List.find?_some hfind)
  · intro t t' h
    simp only [stormTitleMatch, h]

/-- Witness for C5: with dates modelled by string length, a feed whose first
entry is a too-old storm article, second a recent non-storm article, and
third a recent storm article returns the third's title ++ newline ++ summary. -/
theorem C5_scan_for_storms_first_match_witness :
    scan_for_storms (fun p => .ok (Int.ofNat p.length)) 10
      (.ok [⟨some "Hurricane Alpha".toList, some "old".toList, some "aa".toList⟩,
            ⟨some "Sunny skies".toList, some "x".toList, some "recent".toList⟩,
            ⟨some "Tropical Storm Two".toList, some "sum".toList, some "recent".toList⟩]) =
      ("Tropical Storm Two" ++ "\n" ++ "sum").toList := by
  have h := (C5_scan_for_storms_first_match (fun p => .ok (Int.ofNat p.length)) 10
    [⟨some "Hurricane Alpha".toList, some "old".toList, some "aa".toList⟩,
     ⟨some "Sunny skies".toList, some "x".toList, some "recent".toList⟩,
     ⟨some "Tropical Storm Two".toList, some "sum".toList, some "recent".toList⟩]
    (by decide) (fun e he p hp hne => ⟨Int.ofNat p.length, rfl⟩)).1
  rw [h]
  rfl

/-! ## Digest accumulator (log / log2, stormbot.py lines 209-224) -/

/-- Python str.replace(pat, repl): replace non-overlapping occurrences of
`pat` left to right.  (For the empty pattern Python inserts `repl` between
characters; the program only calls this with non-empty patterns, for which
this definition agrees with Python.) -/
def pyReplace (pat repl : List Char) : List Char → List Char
  | [] => []
  | c :: rest =>
    if pat.isPrefixOf (c :: rest) && !pat.isEmpty then
      repl ++ pyReplace pat repl (rest.drop (pat.length - 1))
    else
      c :: pyReplace pat repl rest
termination_by l => l.length
decreasing_by
  all_goals simp [List.length_drop]
  all_goals omega

/-- log (lines 213-216): plain append of the text plus a trailing newline. -/
def log (digest text : List Char) : List Char :=
  digest ++ text ++ ['\n']

/-- log2 (lines 221-224): quoted append — "> " plus the text with every
newline replaced by newline-plus-quote-marker, plus a trailing newline. -/
def log2 (digest text : List Char) : List Char :=
  digest ++ "> ".toList ++ pyReplace "\n".toList "\n> ".toList text ++ ['\n']

/-- The block that a single quoted append adds after the existing digest. -/
def quoteBlock (text : List Char) : List Char :=
  "> ".toList ++ pyReplace "\n".toList "\n> ".toList text ++ ['\n']

/-- Splitting a string at a separator character (the lines of a text, with
splitOnChar sep [] = [[]]); used to state what log2 produces. -/
def splitOnChar (sep : Char) : List Char → List (List Char)
  | [] => [[]]
  | c :: rest =>
    if c = sep then [] :: splitOnChar sep rest
    else
      match splitOnChar sep rest with
      | [] => [[c]]
      | l :: ls => (c :: l) :: ls

/-- Lines each prefixed with the quote marker "> ", joined by newlines. -/
def quoteJoin : List (List Char) → List Char
  | [] => []
  | l :: ls =>
    match ls with
    | [] => "> ".toList ++ l
    | _ :: _ => "> ".toList ++ l ++ '\n' :: quoteJoin ls

theorem splitOnChar_ne_nil (sep : Char) (l : List Char) : splitOnChar sep l ≠ [] := by
  cases l with
  | nil => simp [splitOnChar]
  | cons c rest =>
    by_cases h : c = sep
    · simp [splitOnChar, h]
    · simp only [splitOnChar, if_neg h]
      rcases hs : splitOnChar sep rest with _ | ⟨x, xs⟩
      · simp
      · simp

theorem pyReplace_nl_cons (c : Char) (rest : List Char) :
    pyReplace "\n".toList "\n> ".toList (c :: rest) =
      if c = '\n' then '\n' :: '>' :: ' ' :: pyReplace "\n".toList "\n> ".toList rest
      else c :: pyReplace "\n".toList "\n> ".toList rest := by
  rw [pyReplace]
  by_cases h : c = '\n'
  · subst h
    simp [List.isPrefixOf]
  · have h2 : ¬('\n' = c) := fun hh => h hh.symm
    simp [List.isPrefixOf, h, h2]

theorem q_toList : "> ".toList = ['>', ' '] := rfl

theorem quoteJoin_single (l : List Char) : quoteJoin [l] = "> ".toList ++ l := rfl

theorem quoteJoin_cons_cons (l m : List Char) (ls : List (List Char)) :
    quoteJoin (l :: m :: ls) = "> ".toList ++ l ++ '\n' :: quoteJoin (m :: ls) := rfl

theorem quote_lines (text : List Char) :
    "> ".toList ++ pyReplace "\n".toList "\n> ".toList text =
      quoteJoin (splitOnChar '\n' text) := by
  induction text with
  | nil => simp [pyReplace, splitOnChar, quoteJoin]
  | cons c rest ih =>
    rw [pyReplace_nl_cons]
    obtain ⟨x, xs, hxs⟩ : ∃ x xs, splitOnChar '\n' rest = x :: xs := by
      rcases hs : splitOnChar '\n' rest with _ | ⟨x, xs⟩
      · exact absurd hs (splitOnChar_ne_nil '\n' rest)
      · exact ⟨x, xs, rfl⟩
    by_cases h : c = '\n'
    · subst h
      rw [if_pos rfl]
      have hs2 : splitOnChar '\n' ('\n' :: rest) = [] :: x :: xs := by
        simp [splitOnChar, hxs]
      rw [hs2, quoteJoin_cons_cons, ← hxs, ← ih]
      simp [q_toList]
    · rw [if_neg h]
      have hs2 : splitOnChar '\n' (c :: rest) = (c :: x) :: xs := by
        simp only [splitOnChar, if_neg h, hxs]
      cases xs with
      | nil =>
        rw [hxs, quoteJoin_single] at ih
        have hx : pyReplace "\n".toList "\n> ".toList rest = x := List.append_cancel_left ih
        rw [hs2, quoteJoin_single, hx]
      | cons y t =>
        rw [hxs, quoteJoin_cons_cons] at ih
        have hx : pyReplace "\n".toList "\n> ".toList rest = x ++ '\n' :: quoteJoin (y :: t) :=
          List.append_cancel_left ih
        rw [hs2, quoteJoin_cons_cons, hx]
        simp [q_toList]

/-- Claim C6: a quoted append adds exactly one block after the prior digest,
that block is the input text with every one of its lines prefixed by "> "
(lines joined by newlines) followed by a trailing newline, and applying
log2 twice with identical text appends two identical such blocks, the second
unaffected by the first. -/
theorem C6_log2_quote_blocks (digest text : List Char) :
    log2 digest text = digest ++ quoteBlock text ∧
    quoteBlock text = quoteJoin (splitOnChar '\n' text) ++ ['\n'] ∧
    log2 (log2 digest text) text = digest ++ quoteBlock text ++ quoteBlock text := by
  refine ⟨by simp [log2, quoteBlock], ?_, by simp [log2, quoteBlock]⟩
  rw [quoteBlock, ← quote_lines]

/-! ## Publisher and main (send_md_to_slack / publish / draft / main,
stormbot.py lines 227-310).  The filesystem is a map from path to content,
the webhook a list of performed posts; requests.post either raises or
returns a response object with some status (the code never inspects it). -/

/-- Python str.strip(): drop leading and trailing whitespace. -/
def pyStrip (s : List Char) : List Char :=
  ((s.dropWhile Char.isWhitespace).reverse.dropWhile Char.isWhitespace).reverse

/-- Python str.split(sep) for a non-empty separator: non-overlapping
left-to-right splitting, with "".split(sep) = [""]. -/
def splitSeq (sep : List Char) : List Char → List (List Char)
  | [] => [[]]
  | c :: rest =>
    if sep.isPrefixOf (c :: rest) && !sep.isEmpty then
      [] :: splitSeq sep (rest.drop (sep.length - 1))
    else
      match splitSeq sep rest with
      | [] => [[c]]
      | l :: ls => (c :: l) :: ls
termination_by l => l.length
decreasing_by
  all_goals simp [List.length_drop]
  all_goals omega

/-- The observable world: files on disk (path to content) and the sequence of
webhook deliveries performed (each a list of block texts). -/
structure World where
  files : List (String × List Char)
  posts : List (List (List Char))
  deriving DecidableEq

/-- Outcome of a run that may end in an uncaught exception. -/
inductive RunResult where
  | ok (w : World)
  | exn (w : World)
  deriving DecidableEq

/-- Behaviour of requests.post: raise (network failure), or return a response
with some HTTP status (the webhook rejecting is a non-2xx status). -/
inductive Delivery where
  | raises
  | responds (status : Nat)

def lookupFile (fs : List (String × List Char)) (k : String) : Option (List Char) :=
  List.lookup k fs

def removeFile (fs : List (String × List Char)) (k : String) : List (String × List Char) :=
  fs.filter (fun p => !(p.1 == k))

/-- open(path, "w") + write: create or overwrite. -/
def setFile (fs : List (String × List Char)) (k : String) (v : List Char) :
    List (String × List Char) :=
  (k, v) :: removeFile fs k

/-- os.rename(old, new). -/
def renameFile (fs : List (String × List Char)) (old new : String) :
    List (String × List Char) :=
  match lookupFile fs old with
  | none => fs
  | some v => setFile (removeFile fs old) new v

/-- The block list send_md_to_slack builds (lines 252-263): split the content
on the section token, strip each piece, keep the non-empty ones. -/
def send_md_to_slack_blocks (content : List Char) : List (List Char) :=
  ((splitSeq "##SECTION##".toList content).map pyStrip).filter (fun c => !c.isEmpty)

/-- send_md_to_slack (lines 251-271): one requests.post of the block list;
a raise propagates to the caller, any response (status never inspected)
counts as a performed delivery. -/
def send_md_to_slack (delivery : Delivery) (content : List Char) (w : World) : RunResult :=
  match delivery with
  | .raises => .exn w
  | .responds _ => .ok { w with posts := w.posts ++ [send_md_to_slack_blocks content] }

/-- publish (lines 274-285): no draft is a notice-and-return no-op; otherwise
read the draft, deliver it, then rename the draft to its timestamped archive
name (`now` is the formatted current timestamp). -/
def publish (now : String) (delivery : Delivery) (w : World) : RunResult :=
  match lookupFile w.files "content/draft.md" with
  | none => .ok w
  | some content =>
    match send_md_to_slack delivery content w with
    | .exn w1 => .exn w1
    | .ok w1 =>
      .ok { w1 with
            files := renameFile w1.files "content/draft.md" ("content/" ++ now ++ ".md") }

/-- The digest draft() accumulates (lines 227-243), given the three generated
texts returned by get_storm_report, get_cultural_trivia and get_fun_activity. -/
def draftDigest (storm trivia activity : List Char) : List Char :=
  let d := log [] "*Beep boop! Here is your weekly tropical outlook report:*".toList
  let d := log2 d storm
  let d := log d []
  let d := log d "##SECTION##".toList
  let d := log d "*I do more than just report inclement weather. Learning about cultural trivia is a great way to support diversity and inclusion in the workplace. Here are a few notes about this week:*".toList
  let d := log2 d trivia
  let d := log d []
  let d := log d "##SECTION##".toList
  let d := log d "*If you are not busy evacuating for a hurricane, here is a fun and engaging weekend activity that I have generated for you:*".toList
  let d := log2 d activity
  let d := log d []
  let d := log d "##SECTION##".toList
  let d := log d "*I hope that you have a restful and relaxing break! See you next week—I am sure that it will be a productive one! Beep boop! ☺*".toList
  d

/-- draft (lines 227-248): accumulate the digest and write it to the draft
slot (open("content/draft.md", "w") overwrites silently). -/
def runDraft (storm trivia activity : List Char) (w : World) : World :=
  { w with files := setFile w.files "content/draft.md" (draftDigest storm trivia activity) }

/-- main (lines 288-310): parse the two flags; with neither, ask
interactively and strip().lower() the answer, setting the draft flag on
"draft", else the publish flag on "publish"; then run draft if requested,
then publish if requested.  (os.makedirs("content") only ensures a directory
exists and does not affect the file map.) -/
def mainRun (argsDraft argsPublish : Bool) (answer storm trivia activity : List Char)
    (now : String) (delivery : Delivery) (w : World) : RunResult :=
  let action := pyLower (pyStrip answer)
  let args :=
    if !argsDraft && !argsPublish then
      if action = "draft".toList then (true, argsPublish)
      else if action = "publish".toList then (argsDraft, true)
      else (argsDraft, argsPublish)
    else (argsDraft, argsPublish)
  let w1 := if args.1 then runDraft storm trivia activity w else w
  if args.2 then publish now delivery w1 else .ok w1

theorem lookupFile_setFile (fs : List (String × List Char)) (k : String) (v : List Char) :
    lookupFile (setFile fs k v) k = some v := by
  simp [lookupFile, setFile, List.lookup]

/-- Claim C7 (function `publish`): with no draft file present, publish
performs zero deliveries and leaves the world (files and posts) unchanged. -/
theorem C7_publish_no_draft_noop (now : String) (delivery : Delivery) (w : World)
    (h : lookupFile w.files "content/draft.md" = none) :
    publish now delivery w = .ok w := by
  simp [publish, h]

/-- Witness for C7: publishing over an empty filesystem changes nothing. -/
theorem C7_publish_no_draft_noop_witness :
    publish "2023-10-08-00-00-00" (.responds 200) ⟨[], []⟩ = .ok ⟨[], []⟩ :=
  C7_publish_no_draft_noop "2023-10-08-00-00-00" (.responds 200) ⟨[], []⟩ rfl

/-- Claim C3, amended: the draft survives a publish run exactly when the
network call raises; the rename is not gated on the response status, so any
response — including a webhook rejection (non-2xx status) — leads to the
draft being archived.  Part 1: a raising post aborts the run with the world
unchanged, so the draft file remains at its original path.  Part 2: for every
response status whatsoever the draft is renamed to the timestamped archive. -/
theorem C3_draft_kept_only_when_post_raises (now : String) (w : World) (content : List Char)
    (h : lookupFile w.files "content/draft.md" = some content) :
    (publish now .raises w = .exn w ∧
      lookupFile w.files "content/draft.md" = some content) ∧
    (∀ status, publish now (.responds status) w =
      .ok ⟨renameFile w.files "content/draft.md" ("content/" ++ now ++ ".md"),
           w.posts ++ [send_md_to_slack_blocks content]⟩) := by
  constructor
  · exact ⟨by simp [publish, h, send_md_to_slack], h⟩
  · intro status
    simp [publish, h, send_md_to_slack]

/-- Witness for C3's amended theorem: with a draft on disk, a raising post
leaves the world — draft included — untouched. -/
theorem C3_draft_kept_only_when_post_raises_witness :
    publish "2023-10-08-00-00-00" .raises ⟨[("content/draft.md", "hi".toList)], []⟩ =
      .exn ⟨[("content/draft.md", "hi".toList)], []⟩ :=
  (C3_draft_kept_only_when_post_raises "2023-10-08-00-00-00"
    ⟨[("content/draft.md", "hi".toList)], []⟩ "hi".toList rfl).1.1

/-- Counterexample to claim C3 as stated: a webhook rejection (HTTP 500
response) is a failed delivery, yet publish still archives the draft — after
the run the draft file is gone from its original path. -/
theorem C3_rejected_delivery_still_archives :
    publish "2023-10-08-00-00-00" (.responds 500) ⟨[("content/draft.md", "hi".toList)], []⟩ =
      .ok ⟨[("content/2023-10-08-00-00-00.md", "hi".toList)], [["hi".toList]]⟩ ∧
    lookupFile [("content/2023-10-08-00-00-00.md", "hi".toList)] "content/draft.md" = none := by
  constructor
  · simp [publish, send_md_to_slack, send_md_to_slack_blocks, lookupFile, List.lookup,
      renameFile, setFile, removeFile, splitSeq, pyStrip, List.filter]
  · simp [lookupFile, List.lookup]

/-- Claim C9: with both flags supplied, main runs draft to completion and
publish afterwards, over the state draft produced — so the delivery posts the
block list of the digest written during this same run (overwriting any
pre-existing draft in the initial state `w`). -/
theorem C9_main_draft_then_publish (answer storm trivia activity : List Char)
    (now : String) (status : Nat) (w : World) :
    mainRun true true answer storm trivia activity now (.responds status) w =
      publish now (.responds status) (runDraft storm trivia activity w) ∧
    mainRun true true answer storm trivia activity now (.responds status) w =
      .ok ⟨renameFile (setFile w.files "content/draft.md" (draftDigest storm trivia activity))
             "content/draft.md" ("content/" ++ now ++ ".md"),
           w.posts ++ [send_md_to_slack_blocks (draftDigest storm trivia activity)]⟩ := by
  constructor
  · simp [mainRun]
  · simp [mainRun, runDraft, publish, lookupFile_setFile, send_md_to_slack]

/-- Claim C10: with neither flag and an interactive answer whose
strip().lower() is neither "draft" nor "publish", main performs neither
action: no file is written and no delivery is made (the world is returned
unchanged). -/
theorem C10_main_interactive_other_noop (answer storm trivia activity : List Char)
    (now : String) (delivery : Delivery) (w : World)
    (h1 : pyLower (pyStrip answer) ≠ "draft".toList)
    (h2 : pyLower (pyStrip answer) ≠ "publish".toList) :
    mainRun false false answer storm trivia activity now delivery w = .ok w := by
  have h1' : pyLower (pyStrip answer) ≠ ['d', 'r', 'a', 'f', 't'] := by simpa using h1
  have h2' : pyLower (pyStrip answer) ≠ ['p', 'u', 'b', 'l', 'i', 's', 'h'] := by simpa using h2
  simp [mainRun, h1', h2']

/-- Witness for C10: the answer "  Quit " (strip/lower: "quit") leads to a
run that leaves an empty world empty. -/
theorem C10_main_interactive_other_noop_witness :
    mainRun false false "  Quit ".toList "s".toList "t".toList "a".toList
      "2023-10-08-00-00-00" .raises ⟨[], []⟩ = .ok ⟨[], []⟩ :=
  C10_main_interactive_other_noop "  Quit ".toList "s".toList "t".toList "a".toList
    "2023-10-08-00-00-00" .raises ⟨[], []⟩ (by decide) (by decide)

/-! ## Cultural trivia date (get_cultural_trivia, stormbot.py lines 154-172).
datetime.now() is modelled by its proleptic-Gregorian ordinal day number
(ordinal 1 = January 1 of year 1, a Monday); timedelta(days=k) is ordinal
addition. -/

/-- Python datetime.weekday(): Monday = 0 .. Sunday = 6. -/
def pyWeekday (o : Nat) : Nat := (o - 1) % 7

/-- Gregorian leap-year rule. -/
def isLeap (y : Nat) : Bool := (y % 4 == 0 && y % 100 != 0) || y % 400 == 0

def daysInYear (y : Nat) : Nat := if isLeap y then 366 else 365

/-- Year and 0-based day-of-year of an ordinal, counting years from `y`. -/
def yd (y o : Nat) : Nat × Nat :=
  if o < daysInYear y then (y, o) else yd (y + 1) (o - daysInYear y)
termination_by o
decreasing_by
  have h365 : 0 < daysInYear y := by
    unfold daysInYear
    split <;> omega
  omega

def monthLengths (leap : Bool) : List Nat :=
  [31, if leap then 29 else 28, 31, 30, 31, 30, 31, 31, 30, 31, 30, 31]

/-- 1-based month and day-of-month from a 0-based day-of-year. -/
def toMonthDay : List Nat → Nat → Nat × Nat
  | [], doy => (1, doy + 1)
  | len :: rest, doy =>
    if doy < len then (1, doy + 1)
    else ((toMonthDay rest (doy - len)).1 + 1, (toMonthDay rest (doy - len)).2)

/-- (month, day-of-month) of an ordinal day number. -/
def ordinalToMonthDay (o : Nat) : Nat × Nat :=
  let p := yd 1 (o - 1)
  toMonthDay (monthLengths (isLeap p.1)) p.2

/-- strftime %B: the full month name. -/
def monthName : Nat → List Char
  | 1 => "January".toList
  | 2 => "February".toList
  | 3 => "March".toList
  | 4 => "April".toList
  | 5 => "May".toList
  | 6 => "June".toList
  | 7 => "July".toList
  | 8 => "August".toList
  | 9 => "September".toList
  | 10 => "October".toList
  | 11 => "November".toList
  | 12 => "December".toList
  | _ => []

/-- strftime %d: the day-of-month zero-padded to two digits. -/
def pad2 (d : Nat) : List Char :=
  if d < 10 then '0' :: (Nat.repr d).toList else (Nat.repr d).toList

/-- strftime("%B %d") of an ordinal day number. -/
def strftimeBD (o : Nat) : List Char :=
  monthName (ordinalToMonthDay o).1 ++ ' ' :: pad2 (ordinalToMonthDay o).2

/-- The date string built in get_cultural_trivia (lines 158-160): next
Sunday's strftime("%B %d") with every " 0" replaced by " ". -/
def triviaDate (o : Nat) : List Char :=
  let sunday := o + (6 - pyWeekday o)
  pyReplace " 0".toList " ".toList (strftimeBD sunday)

/-- The prompt get_cultural_trivia builds (lines 165-167): the triple-quoted
f-string with the date interpolated, then .strip()ped. -/
def get_cultural_trivia_prompt (o : Nat) : List Char :=
  pyStrip
    ("\nList 5 diversive cultural trivia that is related to the week starting on ".toList
      ++ triviaDate o
      ++ ". Do not mention any dates.\n   ".toList)

theorem yd_snd_lt (o : Nat) : ∀ y, (yd y o).2 < daysInYear (yd y o).1 := by
  induction o using Nat.strong_induction_on with
  | _ o ih =>
    intro y
    by_cases h : o < daysInYear y
    · rw [yd]
      simp [h]
    · have h365 : 0 < daysInYear y := by
        unfold daysInYear
        split <;> omega
      rw [yd]
      simp only [h, if_false]
      exact ih (o - daysInYear y) (by omega) (y + 1)

theorem monthLengths_sum (y : Nat) : (monthLengths (isLeap y)).sum = daysInYear y := by
  unfold daysInYear monthLengths
  cases h : isLeap y <;> simp

theorem monthLengths_elem (b : Bool) : ∀ x ∈ monthLengths b, 1 ≤ x ∧ x ≤ 31 := by
  cases b <;> decide

theorem toMonthDay_bounds :
    ∀ (ls : List Nat) (doy : Nat), doy < ls.sum → (∀ x ∈ ls, 1 ≤ x ∧ x ≤ 31) →
      1 ≤ (toMonthDay ls doy).1 ∧ (toMonthDay ls doy).1 ≤ ls.length ∧
      1 ≤ (toMonthDay ls doy).2 ∧ (toMonthDay ls doy).2 ≤ 31 := by
  intro ls
  induction ls with
  | nil =>
    intro doy hd _
    simp at hd
  | cons len rest ih =>
    intro doy hd hel
    have hlen := hel len (by simp)
    by_cases h : doy < len
    · simp only [toMonthDay, h, if_true]
      refine ⟨by omega, by simp, by omega, by omega⟩
    · have hd2 : doy - len < rest.sum := by
        simp only [List.sum_cons] at hd
        omega
      have hel2 : ∀ x ∈ rest, 1 ≤ x ∧ x ≤ 31 := fun x hx => hel x (by simp [hx])
      have hb := ih (doy - len) hd2 hel2
      simp only [toMonthDay, h, if_false]
      refine ⟨by omega, by simp; omega, hb.2.2.1, hb.2.2.2⟩

theorem ordinalToMonthDay_bounds (o : Nat) :
    1 ≤ (ordinalToMonthDay o).1 ∧ (ordinalToMonthDay o).1 ≤ 12 ∧
    1 ≤ (ordinalToMonthDay o).2 ∧ (ordinalToMonthDay o).2 ≤ 31 := by
  unfold ordinalToMonthDay
  have hlt := yd_snd_lt (o - 1) 1
  have hsum := monthLengths_sum (yd 1 (o - 1)).1
  have helem := monthLengths_elem (isLeap (yd 1 (o - 1)).1)
  have hb := toMonthDay_bounds (monthLengths (isLeap (yd 1 (o - 1)).1)) (yd 1 (o - 1)).2
    (by rw [hsum]; exact hlt) helem
  have hlen : (monthLengths (isLeap (yd 1 (o - 1)).1)).length = 12 := by
    cases isLeap (yd 1 (o - 1)).1 <;> rfl
  rw [hlen] at hb
  exact hb

theorem pyReplace_sp0_cons (c : Char) (rest : List Char) :
    pyReplace " 0".toList " ".toList (c :: rest) =
      if c = ' ' ∧ rest.head? = some '0' then
        ' ' :: pyReplace " 0".toList " ".toList (rest.drop 1)
      else c :: pyReplace " 0".toList " ".toList rest := by
  rw [pyReplace]
  by_cases h1 : c = ' '
  · subst h1
    cases rest with
    | nil => simp [List.isPrefixOf]
    | cons r rrest =>
      by_cases h2 : r = '0'
      · subst h2
        simp [List.isPrefixOf]
      · have h2' : ¬('0' = r) := fun hh => h2 hh.symm
        simp [List.isPrefixOf, h2, h2']
  · have h1' : ¬(' ' = c) := fun hh => h1 hh.symm
    simp [List.isPrefixOf, h1, h1']

theorem pyReplace_sp0_nospace :
    ∀ l : List Char, (∀ c ∈ l, c ≠ ' ') → pyReplace " 0".toList " ".toList l = l := by
  intro l
  induction l with
  | nil => intro _; rw [pyReplace]
  | cons c rest ih =>
    intro h
    rw [pyReplace_sp0_cons, if_neg]
    · rw [ih (fun x hx => h x (by simp [hx]))]
    · intro hc
      exact h c (by simp) hc.1

theorem pyReplace_sp0_boundary :
    ∀ (m pad : List Char), (∀ c ∈ m, c ≠ '0') → (∀ c ∈ pad, c ≠ ' ') →
      pyReplace " 0".toList " ".toList (m ++ ' ' :: pad) =
        m ++ ' ' :: (if pad.head? = some '0' then pad.tail else pad) := by
  intro m
  induction m with
  | nil =>
    intro pad _ hp
    rw [List.nil_append, pyReplace_sp0_cons]
    by_cases h0 : pad.head? = some '0'
    · rw [if_pos ⟨rfl, h0⟩, if_pos h0]
      have ht : ∀ c ∈ pad.tail, c ≠ ' ' := fun c hc => hp c (List.mem_of_mem_tail hc)
      rw [List.drop_one, pyReplace_sp0_nospace pad.tail ht]
      rfl
    · rw [if_neg (fun hc => h0 hc.2), if_neg h0, pyReplace_sp0_nospace pad hp]
      rfl
  | cons c m2 ih =>
    intro pad hm hp
    have hc0 : c ≠ '0' := hm c (by simp)
    rw [List.cons_append, pyReplace_sp0_cons, if_neg]
    · rw [ih pad (fun x hx => hm x (by simp [hx])) hp]
      rfl
    · intro hc
      rcases hc with ⟨hcs, hh⟩
      cases m2 with
      | nil =>
        simp at hh
      | cons a t =>
        have : a ≠ '0' := hm a (by simp)
        simp at hh
        exact this hh

theorem pad2_facts (d : Nat) (h1 : 1 ≤ d) (h2 : d ≤ 31) :
    (∀ c ∈ pad2 d, c ≠ ' ') ∧
    (if (pad2 d).head? = some '0' then (pad2 d).tail else pad2 d) = (Nat.repr d).toList := by
  interval_cases d <;> exact ⟨by decide, by decide⟩

theorem monthName_no_zero (m : Nat) (h1 : 1 ≤ m) (h2 : m ≤ 12) :
    ∀ c ∈ monthName m, c ≠ '0' := by
  interval_cases m <;> decide

theorem triviaDate_eq (o : Nat) :
    triviaDate o = monthName (ordinalToMonthDay (o + (6 - pyWeekday o))).1 ++
      ' ' :: (Nat.repr (ordinalToMonthDay (o + (6 - pyWeekday o))).2).toList := by
  have hb := ordinalToMonthDay_bounds (o + (6 - pyWeekday o))
  have hm0 := monthName_no_zero _ hb.1 hb.2.1
  have hpf := pad2_facts _ hb.2.2.1 hb.2.2.2
  unfold triviaDate strftimeBD
  rw [pyReplace_sp0_boundary _ _ hm0 hpf.1, hpf.2]

theorem dropWhile_append_of_ne (p : Char → Bool) (a b : List Char)
    (h : a.dropWhile p ≠ []) : (a ++ b).dropWhile p = a.dropWhile p ++ b := by
  induction a with
  | nil => simp at h
  | cons c t ih =>
    by_cases hc : p c
    · rw [List.dropWhile_cons_of_pos hc] at h
      rw [List.cons_append, List.dropWhile_cons_of_pos hc, List.dropWhile_cons_of_pos hc]
      exact ih h
    · rw [List.cons_append, List.dropWhile_cons_of_neg hc, List.dropWhile_cons_of_neg hc]
      rfl

theorem pyStrip_template (mid : List Char) :
    pyStrip
      ("\nList 5 diversive cultural trivia that is related to the week starting on ".toList
        ++ mid ++ ". Do not mention any dates.\n   ".toList) =
    "List 5 diversive cultural trivia that is related to the week starting on ".toList
      ++ mid ++ ". Do not mention any dates.".toList := by
  unfold pyStrip
  rw [List.append_assoc]
  have hA : ("\nList 5 diversive cultural trivia that is related to the week starting on ".toList).dropWhile Char.isWhitespace
      = "List 5 diversive cultural trivia that is related to the week starting on ".toList := by
    decide
  have hAne : ("\nList 5 diversive cultural trivia that is related to the week starting on ".toList).dropWhile Char.isWhitespace ≠ [] := by
    rw [hA]
    decide
  rw [dropWhile_append_of_ne _ _ _ hAne, hA]
  rw [List.reverse_append, List.reverse_append, List.append_assoc]
  have hB : ((". Do not mention any dates.\n   ".toList).reverse).dropWhile Char.isWhitespace
      = (". Do not mention any dates.".toList).reverse := by
    decide
  have hBne : ((". Do not mention any dates.\n   ".toList).reverse).dropWhile Char.isWhitespace ≠ [] := by
    rw [hB]
    decide
  rw [dropWhile_append_of_ne _ _ _ hBne, hB]
  simp [List.reverse_append]

/-- Claim C8: get_cultural_trivia computes the ordinal of the upcoming
Sunday (weekday 6, at most 6 days ahead, today if today is Sunday), formats
it as the full month name plus the day-of-month with the %d leading zero
removed (Nat.repr never carries a leading zero), and interpolates that date
string into the stripped trivia prompt. -/
theorem C8_trivia_prompt_upcoming_sunday (o : Nat) (h : 1 ≤ o) :
    pyWeekday (o + (6 - pyWeekday o)) = 6 ∧
    o ≤ o + (6 - pyWeekday o) ∧
    o + (6 - pyWeekday o) ≤ o + 6 ∧
    triviaDate o = monthName (ordinalToMonthDay (o + (6 - pyWeekday o))).1 ++
      ' ' :: (Nat.repr (ordinalToMonthDay (o + (6 - pyWeekday o))).2).toList ∧
    get_cultural_trivia_prompt o =
      "List 5 diversive cultural trivia that is related to the week starting on ".toList
        ++ triviaDate o ++ ". Do not mention any dates.".toList := by
  refine ⟨?_, ?_, ?_, triviaDate_eq o, ?_⟩
  · unfold pyWeekday
    omega
  · omega
  · unfold pyWeekday
    omega
  · unfold get_cultural_trivia_prompt
    exact pyStrip_template (triviaDate o)

/-- Witness for C8 at the concrete ordinal 5 (Friday, January 5 of year 1;
its upcoming Sunday is ordinal 7, January 7). -/
theorem C8_trivia_prompt_upcoming_sunday_witness :
    1 ≤ 5 ∧
    (pyWeekday (5 + (6 - pyWeekday 5)) = 6 ∧
     5 ≤ 5 + (6 - pyWeekday 5) ∧
     5 + (6 - pyWeekday 5) ≤ 5 + 6 ∧
     triviaDate 5 = monthName (ordinalToMonthDay (5 + (6 - pyWeekday 5))).1 ++
       ' ' :: (Nat.repr (ordinalToMonthDay (5 + (6 - pyWeekday 5))).2).toList ∧
     get_cultural_trivia_prompt 5 =
       "List 5 diversive cultural trivia that is related to the week starting on ".toList
         ++ triviaDate 5 ++ ". Do not mention any dates.".toList) :=
  ⟨by decide, C8_trivia_prompt_upcoming_sunday 5 (by decide)⟩
